import Mathlib

/-!
Shallow embedding of `src/python/aux/utils_floodmodel.py` (module of the
ml_flood repository) and verification of its specification claims.

Modelling conventions:
* A time series (one variable of an xarray Dataset) is a `List (Option ℚ)`;
  `none` models the NaN missing-value sentinel.
* An xarray Dataset is an ordered association list `List (String × Series)`;
  item assignment `ds[name] = v` overwrites an existing entry in place or
  appends a new one at the end (Python dict-like insertion order).
* 2-D spatial fields are flattened to a list of cell values; grid points are
  pairs of rational coordinates where the geometry matters.
* Fallible code returns `Except String`; `warnings.warn` is modelled by a
  Boolean flag returned alongside the result.
-/

abbrev Series := List (Option ℚ)

abbrev Dataset := List (String × Series)

/-- Model of xarray `da.shift(time=i)`: the value at time `t` of the result is
the value at time `t - i` of the input, and positions exposed by the shift are
filled with the missing marker (`none`). Implemented operationally by padding
with `none` and taking/dropping, keeping the length unchanged. -/
def xshift (xs : Series) (i : ℤ) : Series :=
  if 0 ≤ i then
    List.replicate (min i.toNat xs.length) none ++ xs.take (xs.length - i.toNat)
  else
    xs.drop (-i).toNat ++ List.replicate (min (-i).toNat xs.length) none

/-- Variable name built by `add_shifted_variables`: Python computes
`var + sign + str(i)` with `sign = '-'` if `i > 0` else `'+'`; `str` of a
negative integer carries its own minus sign, exactly as `toString` on `ℤ`. -/
def shiftName (var : String) (i : ℤ) : String :=
  if i > 0 then var ++ "-" ++ toString i else var ++ "+" ++ toString i

/-- Model of Dataset item assignment `ds[name] = v`: overwrite the entry with
that name if present, otherwise append a new entry at the end. -/
def setVar (ds : Dataset) (name : String) (v : Series) : Dataset :=
  if ds.any (fun p => p.1 = name) then
    ds.map (fun p => if p.1 = name then (name, v) else p)
  else ds ++ [(name, v)]

/-- Model of Dataset item access `ds[var]` (claims only exercise it on
datasets that do contain `var`). -/
def getVar (ds : Dataset) (var : String) : Series :=
  ((ds.find? (fun p => p.1 = var)).map Prod.snd).getD []

/-- Embedding of `add_shifted_variables(ds, shifts, variables)`
(utils_floodmodel.py lines 99-131): for each selected variable and each
nonzero shift, assign `ds[var+sign+str(i)] = ds[var].shift(time=i)`;
a zero shift is skipped with `continue`. -/
def add_shifted_variables (ds : Dataset) (shifts : List ℤ)
    (varNames : List String) : Dataset :=
  varNames.foldl (fun acc var =>
    shifts.foldl (fun acc2 i =>
      if i = 0 then acc2
      else setVar acc2 (shiftName var i) (xshift (getVar acc2 var) i)) acc) ds

/-- Python object store: `add_shifted_variables` receives a reference to a
Dataset object and mutates that object via item assignment, so we track the
heap of Dataset objects explicitly. -/
structure PyStore where
  datasets : List Dataset
  deriving DecidableEq

/-- Stateful embedding of a call `add_shifted_variables(ds, shifts, variables)`
where `ds` is the Dataset object at index `ref` of the store: the item
assignments inside the function mutate that same object (Python line 130
`ds[newvar] = ds[var].shift(time=i)`), and the function returns the same
reference (line 131 `return ds`). -/
def add_shifted_variables_call (st : PyStore) (ref : ℕ) (shifts : List ℤ)
    (varNames : List String) : PyStore × ℕ :=
  (⟨st.datasets.set ref
      (add_shifted_variables (st.datasets.getD ref []) shifts varNames)⟩, ref)

/-- Result of `cluster_by_discharge`: the dict of named Boolean masks made
into a Dataset, plus the explicitly constructed `clusterId` coordinate
(utils_floodmodel.py lines 200-203). Latitude/longitude coordinates are
copied from the input and carry no information beyond it, so they are
omitted here. -/
structure ClusterDS where
  masks : List (String × List Bool)
  clusterId : List ℕ
  deriving DecidableEq

/-- Embedding of `cluster_by_discharge(dis_2d, bin_edges)`
(utils_floodmodel.py lines 192-203): for `i` in `range(len(bin_edges)-1)`,
mask `str(i)` is `(dis_2d >= bin_edges[i]) & (dis_2d < bin_edges[i+1])`
cell-wise; the `clusterId` coordinate is `range(len(bin_edges))`. The 2-D
discharge field is flattened to a list of cell values. -/
def cluster_by_discharge (dis : List ℚ) (bin_edges : List ℚ) : ClusterDS :=
  { masks := (List.range (bin_edges.length - 1)).map (fun i =>
      (toString i, dis.map (fun v =>
        decide (bin_edges.getD i 0 ≤ v) && decide (v < bin_edges.getD (i + 1) 0)))),
    clusterId := List.range bin_edges.length }

/-- Value of cluster mask number `i` at cell `c`. -/
def clusterMaskVal (cl : ClusterDS) (i c : ℕ) : Bool :=
  ((cl.masks.getD i ("", [])).2).getD c false

/-- One row of the basin GeoDataFrame read by `get_mask_of_basin`: a `NAME`
attribute and a polygon geometry, the latter modelled extensionally as the
list of grid cells it covers. -/
structure BasinRow where
  NAME : String
  geometry : List (ℕ × ℕ)
  deriving DecidableEq

/-- Model of `basins.query("NAME == <kw>")`: the rows whose NAME attribute
equals the requested identifier, in order. -/
def queryByName (basins : List BasinRow) (kw : String) : List BasinRow :=
  basins.filter (fun b => b.NAME = kw)

/-- Model of `rasterio.features.rasterize(shapes, ...)` restricted to one
cell: each `(geometry, value)` pair burns its value onto the cells the
geometry covers, later shapes overwriting earlier ones, and cells covered by
no shape keep the fill value (NaN, modelled as `none`). rasterize raises a
ValueError when given no valid geometry objects; that error path is modelled
separately in `get_mask_of_basin`. -/
def rasterizeCell (shapes : List (List (ℕ × ℕ) × ℕ)) (cell : ℕ × ℕ) : Option ℕ :=
  shapes.foldl (fun acc gv => if cell ∈ gv.1 then some gv.2 else acc) none

/-- Embedding of `get_mask_of_basin(da, kw_basins)` (utils_floodmodel.py
lines 13-52): filter the basin table by NAME, enumerate the matching
geometries as `(shape, n)` burn pairs, rasterize them onto the grid, and
return the Boolean mask `raster == 0`. `rasterio.features.rasterize` raises
when the shape list is empty, so a name matching zero polygons fails. The
grid is the list of cells of `da`; the affine-transform construction only
maps coordinates to cells and is absorbed into the extensional geometry
representation. -/
def get_mask_of_basin (basins : List BasinRow) (cells : List (ℕ × ℕ))
    (kw_basins : String) : Except String (List ((ℕ × ℕ) × Bool)) :=
  let single_basin := queryByName basins kw_basins
  let shapes := single_basin.enum.map (fun p => (p.2.geometry, p.1))
  if shapes.isEmpty then
    Except.error "rasterize: no valid geometry objects found"
  else
    Except.ok (cells.map (fun c => (c, rasterizeCell shapes c == some 0)))

/-- A grid point of the river mask, identified by its latitude/longitude
coordinates. -/
structure GridPoint where
  lat : ℚ
  lon : ℚ
  deriving DecidableEq

/-- Embedding of `select_upstream(mask_river_in_catchment, lat, lon, basin)`
(utils_floodmodel.py lines 55-96), evaluated at one grid point `p`:
* `is_west` is `(~np.isnan(da.where(da.longitude <= lon))).astype(bool)`;
  since the river mask is Boolean (never NaN), `where` inserts NaN exactly
  at longitudes greater than `lon`, so the result is `p.lon ≤ lon`.
* `nearby_mask` starts all-zero and sets the label slices
  `latitude = lat+1.5 .. lat-1.5`, `longitude = lon-1.5 .. lon+1.5` to 1;
  label slicing is inclusive at both ends.
* The basin mask produced by `get_mask_of_basin` depends on external
  geometry data and is abstracted as an arbitrary predicate `mask_basin`.
The returned mask is the pointwise conjunction of the four masks. -/
def select_upstream (mask_basin : GridPoint → Bool)
    (mask_river_in_catchment : GridPoint → Bool)
    (lat lon : ℚ) (p : GridPoint) : Bool :=
  let is_west := decide (p.lon ≤ lon)
  let nearby_mask :=
    decide (lat - 3/2 ≤ p.lat) && decide (p.lat ≤ lat + 3/2) &&
    decide (lon - 3/2 ≤ p.lon) && decide (p.lon ≤ lon + 3/2)
  mask_basin p && nearby_mask && is_west && mask_river_in_catchment p

/-- The predictand argument of `reshape_scalar_predictand`: either a single
DataArray (dimension names plus values along its only meaningful axis) or a
Dataset of named variables, each with its dimension names and values. -/
inductive XrY where
  | da (dims : List String) (values : Series)
  | ds (vars : List (String × List String × Series))

/-- The warning branch of `reshape_scalar_predictand` (lines 225-228):
`warnings.warn` fires iff `y` is a Dataset with more than one variable. -/
def yWarnFlag : XrY → Bool
  | XrY.da _ _ => false
  | XrY.ds vars => vars.length > 1

/-- The extraction loop of `reshape_scalar_predictand` (lines 229-231): for a
Dataset, `for v in y: y = y[v]; break` selects the first variable; a
DataArray is used as is. -/
def ySelect : XrY → List String × Series
  | XrY.da dims values => (dims, values)
  | XrY.ds [] => ([], [])
  | XrY.ds (v :: _) => (v.2.1, v.2.2)

/-- Embedding of `reshape_scalar_predictand(X_dis, y)` (utils_floodmodel.py
lines 206-250). `X_dis` is given post-stacking as the list of its feature
columns (each a time series); `to_array`/`stack` only reindex and are
absorbed into that representation. Steps, as in the source:
* drop features whose column is entirely missing (`dropna('features', how='all')`);
* warn when `y` is a multi-variable Dataset and select its first variable;
* raise `NotImplementedError` when the selected `y` has more than one
  dimension (the message names the offending axes);
* concatenate the predictand as one extra feature column, drop every time
  row containing a missing value (`dropna('time', how='any')`), and split
  the result into `Xyt[:, :-1]` and `Xyt[:, -1]`.
Dropping latitude/longitude coordinates from `y` changes no values and is
omitted. Returns the warning flag together with the fallible result. -/
def reshape_scalar_predictand (Xcols : List Series) (y : XrY) :
    Bool × Except String (List Series × Series) :=
  let Xar := Xcols.filter (fun c => c.any (fun v => v.isSome))
  let warn := yWarnFlag y
  let yar := ySelect y
  if yar.1.length > 1 then
    (warn, Except.error ("y.dims: " ++ String.intercalate ", " yar.1 ++
      " Supply only one predictand dimension, e.g. time!"))
  else
    let T := yar.2.length
    let merged := (List.range T).map (fun t =>
      (Xar.map (fun c => c.getD t none)) ++ [yar.2.getD t none])
    let Xyt := merged.filter (fun r => r.all (fun v => v.isSome))
    (warn, Except.ok (Xyt.map (fun r => r.dropLast),
                      Xyt.map (fun r => r.getLastD none)))

/-- Python slice `l[:-n]` on a row (empty when `n = 0`, as in Python). -/
def sliceUpToNeg (l : List (Option ℚ)) (n : ℕ) : List (Option ℚ) :=
  if n = 0 then [] else l.take (l.length - n)

/-- Python slice `l[-n:]` on a row (the whole row when `n = 0`, as in
Python, since `l[-0:] = l[0:]`). -/
def sliceFromNeg (l : List (Option ℚ)) (n : ℕ) : List (Option ℚ) :=
  if n = 0 then l else l.drop (l.length - n)

/-- Embedding of `reshape_multiday_predictand(X_dis, y)` (utils_floodmodel.py
lines 253-288). `X_dis` is given post-stacking as its feature columns; `y` is
given as its forecast-day columns over time (`out_dim = len(y.forecast_day)`).
The forecast_day axis is relabeled to features, concatenated after the
predictor features, rows with any missing value are dropped, and the result
is split into `Xyt[:, :-out_dim]` and `Xyt[:, -out_dim:]`. The type check on
`y` (must be a DataArray) precedes this numeric pipeline and is modelled away
by the typed argument. -/
def reshape_multiday_predictand (Xcols : List Series) (ycols : List Series) :
    List Series × List Series :=
  let Xar := Xcols.filter (fun c => c.any (fun v => v.isSome))
  let out_dim := ycols.length
  let T := (ycols.getD 0 []).length
  let merged := (List.range T).map (fun t =>
    (Xar.map (fun c => c.getD t none)) ++ ycols.map (fun c => c.getD t none))
  let Xyt := merged.filter (fun r => r.all (fun v => v.isSome))
  (Xyt.map (fun r => sliceUpToNeg r out_dim),
   Xyt.map (fun r => sliceFromNeg r out_dim))

/-! Helper lemmas about list indexing. -/

lemma getD_map_range {α : Type} (f : ℕ → α) (K i : ℕ) (d : α) (h : i < K) :
    ((List.range K).map f).getD i d = f i := by
  rw [List.getD_eq_getElem _ _ (by simpa using h)]
  simp

lemma getD_map_get {α β : Type} (g : α → β) (l : List α) (c : ℕ) (d : β)
    (h : c < l.length) :
    (l.map g).getD c d = g (l.get ⟨c, h⟩) := by
  rw [List.getD_eq_getElem _ _ (by simpa using h)]
  simp

lemma filter_map_comm {α β : Type} (f : α → β) (p : β → Bool) (l : List α) :
    (l.map f).filter p = (l.filter (fun a => p (f a))).map f := by
  rw [List.filter_map]
  rfl

/-- C1: for a predictor collection and a time-only predictand, the
reshape_scalar_predictand outputs are the feature rows and predictand values
at exactly the time steps where no kept feature and not the predictand is
missing, taken in lockstep; consequently X and y have identical sample
counts and no retained row contains a missing value. -/
theorem reshape_scalar_predictand_aligned (Xcols : List Series) (ys : Series) :
    (reshape_scalar_predictand Xcols (XrY.da ["time"] ys)).2 =
      Except.ok
        (((List.range ys.length).filter (fun t =>
            ((Xcols.filter (fun c => c.any (fun v => v.isSome))).map
              (fun c => c.getD t none)).all (fun v => v.isSome) &&
            (ys.getD t none).isSome)).map (fun t =>
              (Xcols.filter (fun c => c.any (fun v => v.isSome))).map
                (fun c => c.getD t none)),
         ((List.range ys.length).filter (fun t =>
            ((Xcols.filter (fun c => c.any (fun v => v.isSome))).map
              (fun c => c.getD t none)).all (fun v => v.isSome) &&
            (ys.getD t none).isSome)).map (fun t => ys.getD t none)) ∧
    (((List.range ys.length).filter (fun t =>
        ((Xcols.filter (fun c => c.any (fun v => v.isSome))).map
          (fun c => c.getD t none)).all (fun v => v.isSome) &&
        (ys.getD t none).isSome)).map (fun t =>
          (Xcols.filter (fun c => c.any (fun v => v.isSome))).map
            (fun c => c.getD t none))).length =
      (((List.range ys.length).filter (fun t =>
        ((Xcols.filter (fun c => c.any (fun v => v.isSome))).map
          (fun c => c.getD t none)).all (fun v => v.isSome) &&
        (ys.getD t none).isSome)).map (fun t => ys.getD t none)).length ∧
    (∀ t ∈ (List.range ys.length).filter (fun t =>
        ((Xcols.filter (fun c => c.any (fun v => v.isSome))).map
          (fun c => c.getD t none)).all (fun v => v.isSome) &&
        (ys.getD t none).isSome),
      ((Xcols.filter (fun c => c.any (fun v => v.isSome))).map
        (fun c => c.getD t none)).all (fun v => v.isSome) = true ∧
      (ys.getD t none).isSome = true) := by
  refine ⟨?_, by simp, ?_⟩
  · have hred : (reshape_scalar_predictand Xcols (XrY.da ["time"] ys)).2 =
        Except.ok
          ((((List.range ys.length).map (fun t =>
              ((Xcols.filter (fun c => c.any (fun v => v.isSome))).map
                (fun c => c.getD t none)) ++ [ys.getD t none])).filter
              (fun r => r.all (fun v => v.isSome))).map (fun r => r.dropLast),
           (((List.range ys.length).map (fun t =>
              ((Xcols.filter (fun c => c.any (fun v => v.isSome))).map
                (fun c => c.getD t none)) ++ [ys.getD t none])).filter
              (fun r => r.all (fun v => v.isSome))).map (fun r => r.getLastD none)) :=
      rfl
    rw [hred, filter_map_comm]
    have hrow : ∀ t ∈ List.range ys.length,
        ((((Xcols.filter (fun c => c.any (fun v => v.isSome))).map
          (fun c => c.getD t none)) ++ [ys.getD t none]).all (fun v => v.isSome)) =
        (((Xcols.filter (fun c => c.any (fun v => v.isSome))).map
          (fun c => c.getD t none)).all (fun v => v.isSome) &&
         (ys.getD t none).isSome) := by
      intro t _
      rw [List.all_append]
      simp
    rw [List.filter_congr hrow, List.map_map, List.map_map]
    refine congrArg Except.ok (Prod.ext ?_ ?_)
    · exact List.map_congr_left (fun t _ => List.dropLast_concat)
    · exact List.map_congr_left (fun t _ => List.getLastD_concat none _ _)
  · intro t ht
    have h2 := (List.mem_filter.mp ht).2
    simpa [Bool.and_eq_true] using h2

theorem reshape_scalar_predictand_aligned_witness :
    (reshape_scalar_predictand [[some 1, none], [some 2, some 3]]
        (XrY.da ["time"] [some 5, some 6])).2 =
      Except.ok ([[some 1, some 2]], [some 5]) := by
  have h := reshape_scalar_predictand_aligned [[some 1, none], [some 2, some 3]]
    [some 5, some 6]
  exact h.1.trans (congrArg Except.ok (by decide))

/-- C3: for bin edges of length K+1, the clusterId coordinate built by
cluster_by_discharge has length K+1 while only K cluster masks are
populated, leaving exactly one clusterId entry unused. -/
theorem cluster_by_discharge_clusterId_length (dis : List ℚ) (bin_edges : List ℚ)
    (K : ℕ) (h : bin_edges.length = K + 1) :
    (cluster_by_discharge dis bin_edges).clusterId.length = K + 1 ∧
    (cluster_by_discharge dis bin_edges).masks.length = K ∧
    (cluster_by_discharge dis bin_edges).clusterId.length -
      (cluster_by_discharge dis bin_edges).masks.length = 1 := by
  simp [cluster_by_discharge, h]

theorem cluster_by_discharge_clusterId_length_witness :
    ([(0:ℚ), 1, 2].length = 2 + 1) ∧
    ((cluster_by_discharge [(1:ℚ)] [0, 1, 2]).clusterId.length = 2 + 1 ∧
     (cluster_by_discharge [(1:ℚ)] [0, 1, 2]).masks.length = 2 ∧
     (cluster_by_discharge [(1:ℚ)] [0, 1, 2]).clusterId.length -
       (cluster_by_discharge [(1:ℚ)] [0, 1, 2]).masks.length = 1) :=
  ⟨by decide, cluster_by_discharge_clusterId_length [(1:ℚ)] [0, 1, 2] 2 (by decide)⟩

/-- C2: with strictly increasing bin edges, mask i of cluster_by_discharge is
true at a cell iff the discharge value lies in the half-open interval from
edge i (inclusive) to edge i+1 (exclusive), and a cell belongs to at most one
cluster; hence with edges [0,1,2] a value of 0.5 is only in cluster 0, a
value of 1.5 only in cluster 1, and a value of exactly 2.0 in no cluster. -/
theorem cluster_by_discharge_halfopen_bins (dis : List ℚ) (bin_edges : List ℚ)
    (i c : ℕ) (hsort : bin_edges.Pairwise (fun a b => a < b))
    (hi : i + 1 < bin_edges.length) (hc : c < dis.length) :
    (clusterMaskVal (cluster_by_discharge dis bin_edges) i c = true ↔
      (bin_edges.getD i 0 ≤ dis.getD c 0 ∧ dis.getD c 0 < bin_edges.getD (i + 1) 0)) ∧
    (∀ j, j + 1 < bin_edges.length →
      clusterMaskVal (cluster_by_discharge dis bin_edges) i c = true →
      clusterMaskVal (cluster_by_discharge dis bin_edges) j c = true → j = i) ∧
    (cluster_by_discharge dis bin_edges).masks.length = bin_edges.length - 1 := by
  have hK : i < bin_edges.length - 1 := by omega
  have hval : ∀ k, k + 1 < bin_edges.length →
      (clusterMaskVal (cluster_by_discharge dis bin_edges) k c = true ↔
        (bin_edges.getD k 0 ≤ dis.getD c 0 ∧ dis.getD c 0 < bin_edges.getD (k + 1) 0)) := by
    intro k hk
    unfold clusterMaskVal cluster_by_discharge
    rw [getD_map_range _ _ _ _ (by omega)]
    rw [getD_map_get _ _ _ _ hc]
    rw [List.getD_eq_getElem dis 0 (by simpa using hc)]
    simp
  refine ⟨hval i hi, ?_, by simp [cluster_by_discharge]⟩
  · intro j hj hmi hmj
    have h1 := (hval i hi).mp hmi
    have h2 := (hval j hj).mp hmj
    by_contra hne
    have hmono : ∀ a b : ℕ, a < b → (hb : b < bin_edges.length) →
        bin_edges.getD a 0 < bin_edges.getD b 0 := by
      intro a b hab hb
      rw [List.getD_eq_getElem bin_edges 0 (by omega),
          List.getD_eq_getElem bin_edges 0 (by simpa using hb)]
      exact List.pairwise_iff_get.mp hsort ⟨a, by omega⟩ ⟨b, by simpa using hb⟩ hab
    rcases Nat.lt_or_ge j i with hlt | hge
    · have hle : bin_edges.getD (j + 1) 0 ≤ bin_edges.getD i 0 := by
        rcases Nat.lt_or_ge (j + 1) i with hlt2 | hge2
        · exact le_of_lt (hmono (j + 1) i hlt2 (by omega))
        · have : j + 1 = i := by omega
          rw [this]
      linarith [h1.1, h1.2, h2.1, h2.2]
    · have hlt : i < j := by omega
      have hle : bin_edges.getD (i + 1) 0 ≤ bin_edges.getD j 0 := by
        rcases Nat.lt_or_ge (i + 1) j with hlt2 | hge2
        · exact le_of_lt (hmono (i + 1) j hlt2 (by omega))
        · have : i + 1 = j := by omega
          rw [this]
      linarith [h1.1, h1.2, h2.1, h2.2]

theorem cluster_by_discharge_halfopen_bins_witness :
    (([(0:ℚ), 1, 2].Pairwise (fun a b => a < b)) ∧ 0 + 1 < [(0:ℚ), 1, 2].length ∧
      0 < [(1:ℚ)/2, 3/2, 2].length) ∧
    ((clusterMaskVal (cluster_by_discharge [(1:ℚ)/2, 3/2, 2] [0, 1, 2]) 0 0 = true ↔
      ([(0:ℚ), 1, 2].getD 0 0 ≤ [(1:ℚ)/2, 3/2, 2].getD 0 0 ∧
       [(1:ℚ)/2, 3/2, 2].getD 0 0 < [(0:ℚ), 1, 2].getD (0 + 1) 0)) ∧
     (∀ j, j + 1 < [(0:ℚ), 1, 2].length →
      clusterMaskVal (cluster_by_discharge [(1:ℚ)/2, 3/2, 2] [0, 1, 2]) 0 0 = true →
      clusterMaskVal (cluster_by_discharge [(1:ℚ)/2, 3/2, 2] [0, 1, 2]) j 0 = true →
      j = 0) ∧
     (cluster_by_discharge [(1:ℚ)/2, 3/2, 2] [0, 1, 2]).masks.length =
       [(0:ℚ), 1, 2].length - 1) :=
  ⟨⟨by decide, by decide, by decide⟩,
   cluster_by_discharge_halfopen_bins [(1:ℚ)/2, 3/2, 2] [0, 1, 2] 0 0
     (by decide) (by decide) (by decide)⟩

/-- C5: any point included in the mask returned by select_upstream has
longitude at most the target longitude and lies inside the inclusive
3-degree by 3-degree box centred on the target point. -/
theorem select_upstream_box (mask_basin river : GridPoint → Bool)
    (lat lon : ℚ) (p : GridPoint)
    (h : select_upstream mask_basin river lat lon p = true) :
    p.lon ≤ lon ∧ lat - 3/2 ≤ p.lat ∧ p.lat ≤ lat + 3/2 ∧
    lon - 3/2 ≤ p.lon ∧ p.lon ≤ lon + 3/2 := by
  simp only [select_upstream, Bool.and_eq_true, decide_eq_true_eq] at h
  tauto

theorem select_upstream_box_witness :
    (select_upstream (fun _ => true) (fun _ => true) 0 0 ⟨0, 0⟩ = true) ∧
    ((0:ℚ) ≤ 0 ∧ (0:ℚ) - 3/2 ≤ 0 ∧ (0:ℚ) ≤ 0 + 3/2 ∧
     (0:ℚ) - 3/2 ≤ 0 ∧ (0:ℚ) ≤ 0 + 3/2) :=
  ⟨by norm_num [select_upstream],
   select_upstream_box (fun _ => true) (fun _ => true) 0 0 ⟨0, 0⟩
     (by norm_num [select_upstream])⟩

/-- C7 counterexample: a basin identifier matching two polygons does not make
get_mask_of_basin fail; it proceeds and returns a mask, so the claim that a
multi-polygon match fails is refuted at this concrete input. -/
theorem get_mask_of_basin_two_matches_no_failure :
    (queryByName [⟨"Danube", [(0, 0)]⟩, ⟨"Danube", [(1, 1)]⟩] "Danube").length = 2 ∧
    (get_mask_of_basin [⟨"Danube", [(0, 0)]⟩, ⟨"Danube", [(1, 1)]⟩]
        [(0, 0), (1, 1)] "Danube").isOk = true := by
  constructor
  · rfl
  · rfl

/-- C7 amended: get_mask_of_basin fails (the rasterize error propagates)
exactly when the basin identifier matches zero polygons; when one or more
polygons match it proceeds without failure, returning the mask of cells
whose rasterized burn value is 0 (the value of the first matched polygon). -/
theorem get_mask_of_basin_zero_match_fails (basins : List BasinRow)
    (cells : List (ℕ × ℕ)) (kw : String) :
    (queryByName basins kw = [] →
      get_mask_of_basin basins cells kw =
        Except.error "rasterize: no valid geometry objects found") ∧
    (queryByName basins kw ≠ [] →
      get_mask_of_basin basins cells kw =
        Except.ok (cells.map (fun c =>
          (c, rasterizeCell
                ((queryByName basins kw).enum.map (fun p => (p.2.geometry, p.1)))
                c == some 0)))) := by
  constructor
  · intro h
    simp [get_mask_of_basin, h]
  · intro h
    have hne : ((queryByName basins kw).enum.map
        (fun p => (p.2.geometry, p.1))).isEmpty = false := by
      rcases List.exists_cons_of_ne_nil h with ⟨b, l, hb⟩
      simp [hb, List.enum]
    simp only [get_mask_of_basin, hne, Bool.false_eq_true, if_false]

theorem get_mask_of_basin_zero_match_fails_witness :
    (queryByName ([] : List BasinRow) "Danube" = []) ∧
    (get_mask_of_basin ([] : List BasinRow) [(0, 0)] "Danube" =
      Except.error "rasterize: no valid geometry objects found") :=
  ⟨rfl, (get_mask_of_basin_zero_match_fails [] [(0, 0)] "Danube").1 rfl⟩

/-- C8 counterexample: for a predictand with dimensions (time, latitude) the
code raises, although the claim (raise exactly when more than one non-time
dimension) predicts no raise there, since only one non-time dimension is
present. -/
theorem reshape_scalar_predictand_dims_counterexample :
    ((["time", "latitude"].filter (fun d => d ≠ "time")).length ≤ 1) ∧
    (reshape_scalar_predictand [[some 1]]
        (XrY.da ["time", "latitude"] [some 1])).2 =
      Except.error ("y.dims: " ++ String.intercalate ", " ["time", "latitude"] ++
        " Supply only one predictand dimension, e.g. time!") := by
  constructor
  · decide
  · rfl

/-- C8 amended: reshape_scalar_predictand raises the unsupported-shape error,
whose message names the offending axes, exactly when the predictand has more
than one dimension in total (time included in the count); in particular a
predictand whose only dimension is time does not raise. -/
theorem reshape_scalar_predictand_dims_check (Xcols : List Series)
    (dims : List String) (values : Series) :
    ((∃ e, (reshape_scalar_predictand Xcols (XrY.da dims values)).2 =
        Except.error e) ↔ dims.length > 1) ∧
    (dims.length > 1 →
      (reshape_scalar_predictand Xcols (XrY.da dims values)).2 =
        Except.error ("y.dims: " ++ String.intercalate ", " dims ++
          " Supply only one predictand dimension, e.g. time!")) ∧
    ((reshape_scalar_predictand Xcols (XrY.da ["time"] values)).2 ≠
      Except.error ("y.dims: " ++ String.intercalate ", " ["time"] ++
        " Supply only one predictand dimension, e.g. time!")) := by
  refine ⟨⟨?_, ?_⟩, ?_, ?_⟩
  · rintro ⟨e, he⟩
    by_contra hlen
    simp [reshape_scalar_predictand, ySelect, if_neg hlen] at he
  · intro hlen
    refine ⟨"y.dims: " ++ String.intercalate ", " dims ++
      " Supply only one predictand dimension, e.g. time!", ?_⟩
    simp [reshape_scalar_predictand, ySelect, if_pos hlen]
  · intro hlen
    simp [reshape_scalar_predictand, ySelect, if_pos hlen]
  · intro h
    simp [reshape_scalar_predictand, ySelect] at h

theorem reshape_scalar_predictand_dims_check_witness :
    (["time", "latitude", "longitude"].length > 1) ∧
    (reshape_scalar_predictand []
        (XrY.da ["time", "latitude", "longitude"] [])).2 =
      Except.error ("y.dims: " ++
        String.intercalate ", " ["time", "latitude", "longitude"] ++
        " Supply only one predictand dimension, e.g. time!") :=
  ⟨by decide,
   (reshape_scalar_predictand_dims_check [] ["time", "latitude", "longitude"]
      []).2.1 (by decide)⟩

/-- C10: a single-variable Dataset predictand produces no warning and the
pipeline proceeds using that variable (the result equals the one obtained
from the variable passed directly as an array); the warning fires exactly
when the Dataset holds more than one variable. -/
theorem reshape_scalar_predictand_single_var_no_warning (Xcols : List Series)
    (name : String) (dims : List String) (values : Series)
    (vars : List (String × List String × Series)) :
    ((reshape_scalar_predictand Xcols (XrY.ds [(name, dims, values)])).1 = false) ∧
    (reshape_scalar_predictand Xcols (XrY.ds [(name, dims, values)]) =
      (false, (reshape_scalar_predictand Xcols (XrY.da dims values)).2)) ∧
    ((reshape_scalar_predictand Xcols (XrY.ds vars)).1 = true ↔
      vars.length > 1) := by
  have hwarn : ∀ y : XrY, (reshape_scalar_predictand Xcols y).1 = yWarnFlag y := by
    intro y
    simp only [reshape_scalar_predictand]
    split <;> rfl
  refine ⟨?_, ?_, ?_⟩
  · rw [hwarn]
    rfl
  · by_cases hc : 1 < dims.length
    · simp [reshape_scalar_predictand, ySelect, yWarnFlag, hc]
    · simp [reshape_scalar_predictand, ySelect, yWarnFlag, hc]
  · rw [hwarn]
    simp [yWarnFlag]

theorem reshape_scalar_predictand_single_var_no_warning_witness :
    ((reshape_scalar_predictand []
        (XrY.ds [("q", ["time"], [some 1])])).1 = false) ∧
    ((reshape_scalar_predictand []
        (XrY.ds [("a", ["time"], []), ("b", ["time"], [])])).1 = true) :=
  ⟨(reshape_scalar_predictand_single_var_no_warning [] "q" ["time"] [some 1]
      [("a", ["time"], []), ("b", ["time"], [])]).1,
   (reshape_scalar_predictand_single_var_no_warning [] "q" ["time"] [some 1]
      [("a", ["time"], []), ("b", ["time"], [])]).2.2.mpr (by decide)⟩

lemma sliceUpToNeg_append (a b : List (Option ℚ)) (hb : b ≠ []) :
    sliceUpToNeg (a ++ b) b.length = a := by
  unfold sliceUpToNeg
  rw [if_neg (by simpa using hb)]
  have hlen : (a ++ b).length - b.length = a.length := by simp
  rw [hlen]
  exact List.take_left a b

lemma sliceFromNeg_append (a b : List (Option ℚ)) (hb : b ≠ []) :
    sliceFromNeg (a ++ b) b.length = b := by
  unfold sliceFromNeg
  rw [if_neg (by simpa using hb)]
  have hlen : (a ++ b).length - b.length = a.length := by simp
  rw [hlen]
  exact List.drop_left a b

/-- C9: for a nonempty forecast_day axis, reshape_multiday_predictand returns
a y matrix whose rows are exactly the forecast-day blocks (one column per
forecast day, so n columns for n forecast days) and an X matrix holding
exactly the feature part of each retained merged row, in lockstep, so X
excludes exactly the n trailing merged columns. -/
theorem reshape_multiday_predictand_columns (Xcols ycols : List Series)
    (h : ycols ≠ []) :
    (reshape_multiday_predictand Xcols ycols).1 =
      ((List.range (ycols.getD 0 []).length).filter (fun t =>
        ((((Xcols.filter (fun c => c.any (fun v => v.isSome))).map
            (fun c => c.getD t none)) ++
          ycols.map (fun c => c.getD t none)).all (fun v => v.isSome)))).map
        (fun t => (Xcols.filter (fun c => c.any (fun v => v.isSome))).map
          (fun c => c.getD t none)) ∧
    (reshape_multiday_predictand Xcols ycols).2 =
      ((List.range (ycols.getD 0 []).length).filter (fun t =>
        ((((Xcols.filter (fun c => c.any (fun v => v.isSome))).map
            (fun c => c.getD t none)) ++
          ycols.map (fun c => c.getD t none)).all (fun v => v.isSome)))).map
        (fun t => ycols.map (fun c => c.getD t none)) ∧
    (∀ r ∈ (reshape_multiday_predictand Xcols ycols).2, r.length = ycols.length) ∧
    (reshape_multiday_predictand Xcols ycols).1.length =
      (reshape_multiday_predictand Xcols ycols).2.length := by
  have hred : reshape_multiday_predictand Xcols ycols =
      ((((List.range (ycols.getD 0 []).length).map (fun t =>
          ((Xcols.filter (fun c => c.any (fun v => v.isSome))).map
            (fun c => c.getD t none)) ++
          ycols.map (fun c => c.getD t none))).filter
          (fun r => r.all (fun v => v.isSome))).map
          (fun r => sliceUpToNeg r ycols.length),
       (((List.range (ycols.getD 0 []).length).map (fun t =>
          ((Xcols.filter (fun c => c.any (fun v => v.isSome))).map
            (fun c => c.getD t none)) ++
          ycols.map (fun c => c.getD t none))).filter
          (fun r => r.all (fun v => v.isSome))).map
          (fun r => sliceFromNeg r ycols.length)) := rfl
  have hup : ∀ t : ℕ,
      sliceUpToNeg (((Xcols.filter (fun c => c.any (fun v => v.isSome))).map
          (fun c => c.getD t none)) ++ ycols.map (fun c => c.getD t none))
        ycols.length =
      (Xcols.filter (fun c => c.any (fun v => v.isSome))).map
        (fun c => c.getD t none) := by
    intro t
    have := sliceUpToNeg_append
      ((Xcols.filter (fun c => c.any (fun v => v.isSome))).map
        (fun c => c.getD t none))
      (ycols.map (fun c => c.getD t none)) (by simpa using h)
    rwa [List.length_map] at this
  have hfrom : ∀ t : ℕ,
      sliceFromNeg (((Xcols.filter (fun c => c.any (fun v => v.isSome))).map
          (fun c => c.getD t none)) ++ ycols.map (fun c => c.getD t none))
        ycols.length =
      ycols.map (fun c => c.getD t none) := by
    intro t
    have := sliceFromNeg_append
      ((Xcols.filter (fun c => c.any (fun v => v.isSome))).map
        (fun c => c.getD t none))
      (ycols.map (fun c => c.getD t none)) (by simpa using h)
    rwa [List.length_map] at this
  have h1 : (reshape_multiday_predictand Xcols ycols).1 =
      ((List.range (ycols.getD 0 []).length).filter (fun t =>
        ((((Xcols.filter (fun c => c.any (fun v => v.isSome))).map
            (fun c => c.getD t none)) ++
          ycols.map (fun c => c.getD t none)).all (fun v => v.isSome)))).map
        (fun t => (Xcols.filter (fun c => c.any (fun v => v.isSome))).map
          (fun c => c.getD t none)) := by
    rw [hred]
    dsimp only
    rw [filter_map_comm, List.map_map]
    exact List.map_congr_left (fun t _ => hup t)
  have h2 : (reshape_multiday_predictand Xcols ycols).2 =
      ((List.range (ycols.getD 0 []).length).filter (fun t =>
        ((((Xcols.filter (fun c => c.any (fun v => v.isSome))).map
            (fun c => c.getD t none)) ++
          ycols.map (fun c => c.getD t none)).all (fun v => v.isSome)))).map
        (fun t => ycols.map (fun c => c.getD t none)) := by
    rw [hred]
    dsimp only
    rw [filter_map_comm, List.map_map]
    exact List.map_congr_left (fun t _ => hfrom t)
  refine ⟨h1, h2, ?_, ?_⟩
  · intro r hr
    rw [h2] at hr
    rcases List.mem_map.mp hr with ⟨t, _, hrt⟩
    rw [← hrt, List.length_map]
  · rw [h1, h2]
    simp

theorem reshape_multiday_predictand_columns_witness :
    ([[some (10:ℚ), none], [some 20, some 21], [some 30, some 31]] ≠
      ([] : List Series)) ∧
    (reshape_multiday_predictand [[some 1, some 2]]
        [[some 10, none], [some 20, some 21], [some 30, some 31]]).1 =
      [[some 1]] ∧
    (reshape_multiday_predictand [[some 1, some 2]]
        [[some 10, none], [some 20, some 21], [some 30, some 31]]).2 =
      [[some 10, some 20, some 30]] := by
  have h := reshape_multiday_predictand_columns [[some 1, some 2]]
    [[some 10, none], [some 20, some 21], [some 30, some 31]] (by decide)
  exact ⟨by decide, h.1.trans (by decide), h.2.1.trans (by decide)⟩

/-! Helper lemmas for the time-shift machinery. -/

lemma getD_replicate_none {α : Type} (k t : ℕ) :
    (List.replicate k (none : Option α)).getD t none = none := by
  induction k generalizing t with
  | zero => cases t <;> rfl
  | succ n ih =>
    cases t with
    | zero => rfl
    | succ m =>
      rw [List.replicate_succ, List.getD_cons_succ]
      exact ih m

lemma getD_take {α : Type} (l : List α) (n m : ℕ) (d : α) (h : m < n) :
    (l.take n).getD m d = l.getD m d := by
  rw [List.getD_eq_getElem?_getD, List.getD_eq_getElem?_getD,
    List.getElem?_take_of_lt h]

lemma getD_drop {α : Type} (l : List α) (n m : ℕ) (d : α) :
    (l.drop n).getD m d = l.getD (n + m) d := by
  rw [List.getD_eq_getElem?_getD, List.getD_eq_getElem?_getD, List.getElem?_drop]

lemma xshift_getD (xs : Series) (i : ℤ) (t : ℕ) (ht : t < xs.length) :
    (xshift xs i).getD t none =
      if 0 ≤ (t : ℤ) - i ∧ (t : ℤ) - i < (xs.length : ℤ) then
        xs.getD ((t : ℤ) - i).toNat none
      else none := by
  unfold xshift
  by_cases hi : 0 ≤ i
  · rw [if_pos hi]
    have hik : i = (i.toNat : ℤ) := (Int.toNat_of_nonneg hi).symm
    by_cases htk : t < min i.toNat xs.length
    · rw [List.getD_append _ _ _ t (by simp only [List.length_replicate]; omega)]
      rw [getD_replicate_none]
      rw [if_neg (by omega)]
    · have hk : i.toNat ≤ xs.length := by omega
      have hkt : i.toNat ≤ t := by omega
      rw [List.getD_append_right _ _ _ t (by simp only [List.length_replicate]; omega)]
      simp only [List.length_replicate]
      rw [Nat.min_eq_left hk]
      rw [getD_take _ _ _ _ (by omega)]
      rw [if_pos (by omega)]
      congr 1
      omega
  · rw [if_neg hi]
    have hik : -i = ((-i).toNat : ℤ) := (Int.toNat_of_nonneg (by omega)).symm
    by_cases hdk : t < xs.length - (-i).toNat
    · rw [List.getD_append _ _ _ t (by simp [List.length_drop]; omega)]
      rw [getD_drop]
      rw [if_pos (by omega)]
      congr 1
      omega
    · rw [List.getD_append_right _ _ _ t (by simp [List.length_drop]; omega)]
      rw [getD_replicate_none]
      rw [if_neg (by omega)]

lemma setVar_fresh (ds : Dataset) (name : String) (v : Series)
    (h : name ∉ ds.map Prod.fst) :
    setVar ds name v = ds ++ [(name, v)] := by
  unfold setVar
  rw [if_neg]
  intro hany
  rw [List.any_eq_true] at hany
  rcases hany with ⟨p, hp, hpe⟩
  exact h (List.mem_map.mpr ⟨p, hp, by simpa using hpe⟩)

lemma getVar_append_of_mem (ds l : Dataset) (var : String)
    (h : var ∈ ds.map Prod.fst) :
    getVar (ds ++ l) var = getVar ds var := by
  unfold getVar
  rw [List.find?_append]
  cases hf : ds.find? (fun p => p.1 = var) with
  | none =>
    exfalso
    rcases List.mem_map.mp h with ⟨p, hp, hpv⟩
    have := List.find?_eq_none.mp hf p hp
    simp [hpv] at this
  | some p => simp [Option.or]

lemma add_shifted_foldl (var : String) (xs : Series) :
    ∀ (shifts : List ℤ) (ds : Dataset),
      getVar ds var = xs →
      var ∈ ds.map Prod.fst →
      (∀ i ∈ shifts, i ≠ 0 → shiftName var i ∉ ds.map Prod.fst) →
      ((shifts.filter (fun i => i ≠ 0)).map (shiftName var)).Nodup →
      shifts.foldl (fun acc2 i =>
        if i = 0 then acc2
        else setVar acc2 (shiftName var i) (xshift (getVar acc2 var) i)) ds =
      ds ++ (shifts.filter (fun i => i ≠ 0)).map
        (fun i => (shiftName var i, xshift xs i)) := by
  intro shifts
  induction shifts with
  | nil =>
    intro ds h1 h2 h3 h4
    simp
  | cons i rest ih =>
    intro ds h1 h2 h3 h4
    have hfc0 : ∀ (hi : ¬ i = 0),
        ((i :: rest).filter (fun j => j ≠ 0)).map (shiftName var) =
          shiftName var i :: (rest.filter (fun j => j ≠ 0)).map (shiftName var) := by
      intro hi
      simp [List.filter_cons, hi]
    by_cases hi : i = 0
    · subst hi
      have hstep : List.foldl (fun acc2 i =>
          if i = 0 then acc2
          else setVar acc2 (shiftName var i) (xshift (getVar acc2 var) i))
            ds (0 :: rest) =
        List.foldl (fun acc2 i =>
          if i = 0 then acc2
          else setVar acc2 (shiftName var i) (xshift (getVar acc2 var) i))
            ds rest := rfl
      rw [hstep, ih ds h1 h2 (fun j hj hj0 => h3 j (by simp [hj]) hj0)
        (by simpa [List.filter_cons] using h4)]
      simp [List.filter_cons]
    · simp only [List.foldl_cons, if_neg hi]
      rw [h1, setVar_fresh ds _ _ (h3 i (by simp) hi)]
      have h1x : getVar (ds ++ [(shiftName var i, xshift xs i)]) var = xs := by
        rw [getVar_append_of_mem ds _ var h2]
        exact h1
      have h2x : var ∈ (ds ++ [(shiftName var i, xshift xs i)]).map Prod.fst := by
        simp only [List.map_append, List.mem_append]
        exact Or.inl h2
      have h3x : ∀ j ∈ rest, j ≠ 0 →
          shiftName var j ∉ (ds ++ [(shiftName var i, xshift xs i)]).map Prod.fst := by
        intro j hj hj0
        simp only [List.map_append, List.mem_append]
        rintro (hin | hin)
        · exact h3 j (by simp [hj]) hj0 hin
        · simp only [List.map_cons, List.map_nil, List.mem_singleton] at hin
          have hmem : shiftName var i ∈
              (rest.filter (fun j => j ≠ 0)).map (shiftName var) := by
            rw [← hin]
            exact List.mem_map.mpr ⟨j, List.mem_filter.mpr ⟨hj, by simpa using hj0⟩, rfl⟩
          rw [hfc0 hi] at h4
          exact (List.nodup_cons.mp h4).1 hmem
      have h4x : ((rest.filter (fun j => j ≠ 0)).map (shiftName var)).Nodup := by
        rw [hfc0 hi] at h4
        exact (List.nodup_cons.mp h4).2
      rw [ih (ds ++ [(shiftName var i, xshift xs i)]) h1x h2x h3x h4x]
      rw [List.append_assoc]
      congr 1
      simp [List.filter_cons, hi]

/-- C4: with a single selected variable present in the dataset and fresh
shifted names, add_shifted_variables appends, for each nonzero shift i in
order, exactly one new variable named by shiftName (var-i for i greater than
0, var+str(i) for negative i, str carrying the minus sign), whose series is
the original shifted by i along time; a zero shift adds nothing; the shifted
series holds at index t the original value at index t-i, and the positions
exposed by the shift are missing. -/
theorem add_shifted_variables_spec (ds : Dataset) (var : String) (xs : Series)
    (shifts : List ℤ)
    (h1 : getVar ds var = xs)
    (h2 : var ∈ ds.map Prod.fst)
    (h3 : ∀ i ∈ shifts, i ≠ 0 → shiftName var i ∉ ds.map Prod.fst)
    (h4 : ((shifts.filter (fun i => i ≠ 0)).map (shiftName var)).Nodup) :
    add_shifted_variables ds shifts [var] =
      ds ++ (shifts.filter (fun i => i ≠ 0)).map
        (fun i => (shiftName var i, xshift xs i)) ∧
    (∀ i : ℤ, ∀ t : ℕ, t < xs.length →
      (xshift xs i).getD t none =
        if 0 ≤ (t : ℤ) - i ∧ (t : ℤ) - i < (xs.length : ℤ) then
          xs.getD ((t : ℤ) - i).toNat none
        else none) := by
  constructor
  · unfold add_shifted_variables
    simp only [List.foldl_cons, List.foldl_nil]
    exact add_shifted_foldl var xs shifts ds h1 h2 h3 h4
  · intro i t ht
    exact xshift_getD xs i t ht

theorem add_shifted_variables_spec_witness :
    (getVar [("x", [some (7:ℚ), some 8, some 9])] "x" = [some 7, some 8, some 9] ∧
     "x" ∈ ([("x", [some (7:ℚ), some 8, some 9])] : Dataset).map Prod.fst) ∧
    add_shifted_variables [("x", [some (7:ℚ), some 8, some 9])] [1, 2] ["x"] =
      [("x", [some 7, some 8, some 9]),
       ("x-1", [none, some 7, some 8]),
       ("x-2", [none, none, some 7])] := by
  have h := add_shifted_variables_spec [("x", [some (7:ℚ), some 8, some 9])] "x"
    [some 7, some 8, some 9] [1, 2] (by decide) (by decide)
    (by decide) (by decide)
  exact ⟨⟨by decide, by decide⟩, h.1.trans (by decide)⟩

/-- C6 counterexample: calling add_shifted_variables on a stored Dataset
object changes that object: after the call the caller input no longer holds
exactly the variables it held before (the shifted variable was added in
place), refuting the no-mutation claim at this concrete input. -/
theorem add_shifted_variables_mutates_input :
    (add_shifted_variables_call ⟨[[("x", [some (1:ℚ), some 2])]]⟩
        0 [1] ["x"]).1.datasets.getD 0 [] ≠
      (PyStore.mk [[("x", [some (1:ℚ), some 2])]]).datasets.getD 0 [] := by
  decide

/-- C6 amended: add_shifted_variables mutates the caller input in place and
returns the same object: the referenced Dataset afterwards holds the
original variables plus the shifted ones (exactly the returned dataset of
the pure computation), while every other stored object is unchanged. -/
theorem add_shifted_variables_call_frame (st : PyStore) (ref : ℕ)
    (shifts : List ℤ) (varNames : List String) (h : ref < st.datasets.length) :
    ((add_shifted_variables_call st ref shifts varNames).2 = ref) ∧
    ((add_shifted_variables_call st ref shifts varNames).1.datasets.getD ref [] =
      add_shifted_variables (st.datasets.getD ref []) shifts varNames) ∧
    (∀ j, j ≠ ref →
      (add_shifted_variables_call st ref shifts varNames).1.datasets.getD j [] =
        st.datasets.getD j []) := by
  refine ⟨rfl, ?_, ?_⟩
  · simp only [add_shifted_variables_call]
    rw [List.getD_eq_getElem?_getD, List.getElem?_set_self h]
    rfl
  · intro j hj
    simp only [add_shifted_variables_call]
    rw [List.getD_eq_getElem?_getD, List.getElem?_set_ne (Ne.symm hj),
      ← List.getD_eq_getElem?_getD]

theorem add_shifted_variables_call_frame_witness :
    (0 < (PyStore.mk [[("x", [some (1:ℚ)])], [("y", [])]]).datasets.length) ∧
    ((add_shifted_variables_call ⟨[[("x", [some (1:ℚ)])], [("y", [])]]⟩
        0 [1] ["x"]).2 = 0) ∧
    ((add_shifted_variables_call ⟨[[("x", [some (1:ℚ)])], [("y", [])]]⟩
        0 [1] ["x"]).1.datasets.getD 1 [] =
      (PyStore.mk [[("x", [some (1:ℚ)])], [("y", [])]]).datasets.getD 1 []) :=
  ⟨by decide,
   (add_shifted_variables_call_frame ⟨[[("x", [some (1:ℚ)])], [("y", [])]]⟩
      0 [1] ["x"] (by decide)).1,
   (add_shifted_variables_call_frame ⟨[[("x", [some (1:ℚ)])], [("y", [])]]⟩
      0 [1] ["x"] (by decide)).2.2 1 (by decide)⟩
